import Mathlib

/-!
# Verification of the Arty A7 bare-metal firmware (`src/fpga/firmware/main.c`)

The program is a single C file driving three memory-mapped registers at
base `0x8000_0000`:

  * `GPIO_LED`    (base+0x00, write-only) — low 4 bits drive the LEDs;
  * `UART_TX`     (base+0x04, write-only) — byte to transmit;
  * `UART_STATUS` (base+0x08, read-only)  — bit 0 = transmitter busy.

We embed the program shallowly as functions over an explicit event trace.
Every hardware register access performed by the program is recorded as an
`Event`; pure computation (including the `delay` spin loop, which touches
no register) leaves the trace unchanged.  The environment is modelled by a
status oracle `status : Nat → Nat` giving the value returned by the k-th
read of `UART_STATUS` (reads are counted globally in the machine state).
The two unbounded `while` loops of the C source (`uart_putc`'s busy-wait
and the top-level LED loop) are modelled with an explicit poll budget
(`fuel`) and an explicit iteration count, respectively.
-/

namespace Firmware

/-- A single hardware register access, in program order:
a read of `UART_STATUS` returning `v`, a 32-bit write of `v` to `UART_TX`,
or a 32-bit write of `v` to `GPIO_LED`. -/
inductive Event where
  | readStatus (v : Nat)
  | writeData (v : Nat)
  | writeLed (v : Nat)
deriving DecidableEq

/-- Machine state threaded through the embedding: the number of
`UART_STATUS` reads performed so far (indexing the status oracle) and the
log of all register accesses, oldest first. -/
structure St where
  reads : Nat
  events : List Event
deriving DecidableEq

/-- The initial state: no reads performed, empty access log. -/
def initSt : St := ⟨0, []⟩

/-- The `UART_TX` writes of a trace, in order. -/
def uartWrites (es : List Event) : List Nat :=
  es.filterMap fun e =>
    match e with
    | Event.writeData v => some v
    | _ => none

/-- The `GPIO_LED` writes of a trace, in order. -/
def ledWrites (es : List Event) : List Nat :=
  es.filterMap fun e =>
    match e with
    | Event.writeLed v => some v
    | _ => none

/-- Embedding of

```c
static void uart_putc(char c)
{
    /* Wait until TX is idle */
    while (UART_STATUS & 1)
        ;
    UART_TX = (uint32_t)c;
}
```

`status k` is the value returned by the k-th `UART_STATUS` read overall.
The unbounded busy-wait is given a poll budget `fuel`: the result's
boolean is `true` when the call returned (the write was issued) and
`false` when the budget ran out while the transmitter still reported
busy.  Each status read appends a `readStatus` event and bumps the read
counter; the data write appends a `writeData` event. -/
def uart_putc (status : Nat → Nat) (c : Nat) : Nat → St → Bool × St
  | 0, st => (false, st)
  | fuel + 1, st =>
    if status st.reads % 2 = 1 then
      uart_putc status c fuel
        ⟨st.reads + 1, st.events ++ [Event.readStatus (status st.reads)]⟩
    else
      (true, ⟨st.reads + 1,
        st.events ++ [Event.readStatus (status st.reads), Event.writeData c]⟩)

/-- Embedding of

```c
static void uart_puts(const char *s)
{
    while (*s)
        uart_putc(*s++);
}
```

The string is the list of its byte values; iteration stops at the first
zero byte (the C terminator).  Each `uart_putc` call gets the poll budget
`fuel`; a failed call aborts the whole send with `false`. -/
def uart_puts (status : Nat → Nat) (fuel : Nat) : List Nat → St → Bool × St
  | [], st => (true, st)
  | c :: cs, st =>
    if c = 0 then (true, st)
    else
      match uart_putc status c fuel st with
      | (true, st1) => uart_puts status fuel cs st1
      | (false, st1) => (false, st1)

/-- `2^32`, the modulus of the C `uint32_t` arithmetic. -/
def UINT32_MOD : Nat := 2 ^ 32

/-- Embedding of

```c
static void delay(volatile uint32_t count)
{
    while (count--)
        ;
}
```

Each evaluation of the condition `count--` tests the current value and
then decrements it (with `uint32_t` wraparound).  `delay n` returns the
number of decrements of the loop variable performed before the call
returns, paired with the variable's final value.  When the tested value
is `0` the loop exits, but the post-decrement still happens and wraps the
variable to `2^32 - 1`; when the tested value is `n + 1` the variable
becomes `n` and the loop continues.  `delay` touches no hardware
register, so it contributes no events. -/
def delay : Nat → Nat × Nat
  | 0 => (1, UINT32_MOD - 1)
  | n + 1 =>
    let r := delay n
    (r.1 + 1, r.2)

/-- Embedding of the steady-state loop of `main`:

```c
    uint8_t pattern = 0;
    while (1) {
        GPIO_LED = pattern & 0x0F;
        pattern++;
        delay(5000000);   /* ~50 ms @ 100 MHz  */
    }
}
```

run for `n` iterations starting from counter value `pattern`
(a `uint8_t`, so the increment wraps at 256).  Each iteration writes
`pattern & 0x0F` to the LED register and then spins in `delay`, which
performs no register access and hence adds no event. -/
def mainLoop : Nat → Nat → St → St
  | 0, _, st => st
  | n + 1, pattern, st =>
    let st1 : St := ⟨st.reads, st.events ++ [Event.writeLed (pattern &&& 0x0F)]⟩
    mainLoop n ((pattern + 1) % 256) st1

/-- The byte values of the C string literal `"Hello, Arty A7!\r\n"`
passed to `uart_puts` by `main` (terminator excluded, as `uart_puts`
stops there). -/
def HELLO : List Nat := "Hello, Arty A7!\r\n".toList.map Char.toNat

/-- Embedding of

```c
void main(void)
{
    uart_puts("Hello, Arty A7!\r\n");

    uint8_t pattern = 0;
    while (1) { ... }
}
```

`fuel` is the poll budget of each `uart_putc` call and `iters` the number
of steady-state iterations to run.  If the greeting hangs (budget
exhausted on a busy transmitter) the run stops there with `false`. -/
def firmwareMain (status : Nat → Nat) (fuel iters : Nat) : Bool × St :=
  let r := uart_puts status fuel HELLO initSt
  if r.1 then (true, mainLoop iters 0 r.2) else r

/-- A status oracle whose every read returns 0: the transmitter always
reports idle (bit 0 clear), as with zero-initialized simulated memory. -/
def alwaysIdle : Nat → Nat := fun _ => 0

/-- A status oracle whose every read returns 1: the transmitter never
clears its busy bit. -/
def alwaysBusy : Nat → Nat := fun _ => 1

end Firmware

namespace Firmware

/-! ## Helper lemmas about the trace projections -/

theorem uartWrites_append (es fs : List Event) :
    uartWrites (es ++ fs) = uartWrites es ++ uartWrites fs :=
  List.filterMap_append es fs _

theorem ledWrites_append (es fs : List Event) :
    ledWrites (es ++ fs) = ledWrites es ++ ledWrites fs :=
  List.filterMap_append es fs _

/-! ## Behaviour of `uart_putc` under an always-idle transmitter -/

theorem putc_idle_eq (status : Nat → Nat) (c fuel : Nat) (st : St)
    (h : status st.reads % 2 = 0) :
    uart_putc status c (fuel + 1) st =
      (true, ⟨st.reads + 1,
        st.events ++ [Event.readStatus (status st.reads), Event.writeData c]⟩) := by
  simp [uart_putc, h]

theorem puts_idle (status : Nat → Nat) (h : ∀ k, status k % 2 = 0) (fuel : Nat) :
    ∀ (s : List Nat), (∀ c ∈ s, c ≠ 0) → ∀ st : St,
      (uart_puts status (fuel + 1) s st).1 = true ∧
      uartWrites (uart_puts status (fuel + 1) s st).2.events =
        uartWrites st.events ++ s := by
  intro s
  induction s with
  | nil => intro _ st; exact ⟨rfl, by simp [uart_puts]⟩
  | cons c cs ih =>
    intro hs st
    have hc : c ≠ 0 := hs c (by simp)
    have hstep := putc_idle_eq status c fuel st (h st.reads)
    have hrest := ih (fun d hd => hs d (by simp [hd]))
      ⟨st.reads + 1, st.events ++ [Event.readStatus (status st.reads), Event.writeData c]⟩
    simp only [uart_puts, if_neg hc, hstep]
    refine ⟨hrest.1, ?_⟩
    rw [hrest.2]
    simp [uartWrites_append, uartWrites]

/-! ## Behaviour of `uart_putc` under an always-busy transmitter -/

/-- The trace left by `n` consecutive polls of the status register,
starting at global read index `k`. -/
def busyTrace (status : Nat → Nat) : Nat → Nat → List Event
  | 0, _ => []
  | n + 1, k => Event.readStatus (status k) :: busyTrace status n (k + 1)

theorem uartWrites_busyTrace (status : Nat → Nat) :
    ∀ n k, uartWrites (busyTrace status n k) = [] := by
  intro n
  induction n with
  | zero => intro k; rfl
  | succ n ih =>
    intro k
    have : Event.readStatus (status k) :: busyTrace status n (k + 1) =
        [Event.readStatus (status k)] ++ busyTrace status n (k + 1) := rfl
    rw [busyTrace, this, uartWrites_append, ih]
    rfl

theorem putc_busy_trace (status : Nat → Nat) (c : Nat)
    (h : ∀ k, status k % 2 = 1) :
    ∀ (fuel : Nat) (st : St),
      uart_putc status c fuel st =
        (false, ⟨st.reads + fuel,
                 st.events ++ busyTrace status fuel st.reads⟩) := by
  intro fuel
  induction fuel with
  | zero => intro st; simp [uart_putc, busyTrace]
  | succ n ih =>
    intro st
    simp only [uart_putc, if_pos (h st.reads)]
    rw [ih]
    simp only [busyTrace, Prod.mk.injEq, St.mk.injEq]
    exact ⟨trivial, by omega, by simp⟩

/-! ## Trace shape of the steady-state LED loop -/

theorem mainLoop_reads (n : Nat) :
    ∀ (p : Nat) (st : St), (mainLoop n p st).reads = st.reads := by
  induction n with
  | zero => intro p st; rfl
  | succ n ih => intro p st; simp [mainLoop, ih]

theorem uartWrites_mainLoop (n : Nat) :
    ∀ (p : Nat) (st : St),
      uartWrites (mainLoop n p st).events = uartWrites st.events := by
  induction n with
  | zero => intro p st; rfl
  | succ n ih =>
    intro p st
    simp only [mainLoop]
    rw [ih, uartWrites_append]
    simp [uartWrites]

theorem ledWrites_mainLoop (n : Nat) :
    ∀ (p : Nat) (st : St), p < 256 →
      ledWrites (mainLoop n p st).events =
        ledWrites st.events ++
          (List.range n).map (fun i => ((p + i) % 256) &&& 0x0F) := by
  induction n with
  | zero => intro p st _; simp [mainLoop]
  | succ n ih =>
    intro p st hp
    simp only [mainLoop]
    rw [ih ((p + 1) % 256) _ (Nat.mod_lt _ (by omega))]
    rw [List.range_succ_eq_map]
    have harg : (fun i => (((p + 1) % 256 + i) % 256) &&& 0x0F) =
        (fun i => ((p + (i + 1)) % 256) &&& 0x0F) := by
      funext i
      congr 1
      omega
    rw [harg]
    simp [ledWrites_append, ledWrites, List.map_map, Function.comp_def,
      Nat.mod_eq_of_lt hp]

/-! ## `uart_putc` and `uart_puts` never touch the LED register -/

theorem ledWrites_putc (status : Nat → Nat) (c : Nat) :
    ∀ (fuel : Nat) (st : St),
      ledWrites ((uart_putc status c fuel st).2.events) = ledWrites st.events := by
  intro fuel
  induction fuel with
  | zero => intro st; rfl
  | succ n ih =>
    intro st
    by_cases hb : status st.reads % 2 = 1
    · simp only [uart_putc, if_pos hb]
      rw [ih]
      simp [ledWrites_append, ledWrites]
    · simp only [uart_putc, if_neg hb]
      simp [ledWrites_append, ledWrites]

theorem ledWrites_puts (status : Nat → Nat) (fuel : Nat) :
    ∀ (s : List Nat) (st : St),
      ledWrites ((uart_puts status fuel s st).2.events) = ledWrites st.events := by
  intro s
  induction s with
  | nil => intro st; rfl
  | cons c cs ih =>
    intro st
    by_cases hc : c = 0
    · simp [uart_puts, hc]
    · simp only [uart_puts, if_neg hc]
      rcases hr : uart_putc status c fuel st with ⟨b, st1⟩
      have hled : ledWrites st1.events = ledWrites st.events := by
        have := ledWrites_putc status c fuel st
        rw [hr] at this
        exact this
      cases b
      · simp [hled]
      · rw [ih st1]
        exact hled

/-! ## Claim theorems -/

/-- Claim C1: when the UART status register reports idle before every poll,
the startup call `uart_puts("Hello, Arty A7!\r\n")` returns, and the byte
sequence written to the UART data register is exactly the ASCII bytes of
the greeting, in order, with no additional or missing bytes. -/
theorem C1_greeting_bytes_exact (status : Nat → Nat) (fuel : Nat)
    (h : ∀ k, status k % 2 = 0) :
    (uart_puts status (fuel + 1) HELLO initSt).1 = true ∧
    uartWrites (uart_puts status (fuel + 1) HELLO initSt).2.events = HELLO := by
  have hp := puts_idle status h fuel HELLO (by decide) initSt
  simpa [initSt, uartWrites] using hp

/-- Witness for C1: the concrete always-idle oracle with poll budget 1. -/
theorem C1_witness :
    (uart_puts alwaysIdle 1 HELLO initSt).1 = true ∧
    uartWrites (uart_puts alwaysIdle 1 HELLO initSt).2.events = HELLO :=
  C1_greeting_bytes_exact alwaysIdle 0 (fun _ => rfl)

/-- Claim C2: in the steady-state loop started at counter 0, the i-th LED
write is the low 4 bits of the 8-bit counter, whose value at iteration i is
i mod 256: the counter increments by one each iteration and wraps from 255
back to 0, so the writes appear in strictly increasing modulo-256 counter
order. -/
theorem C2_led_writes_low_nibble (n : Nat) :
    ledWrites (mainLoop n 0 initSt).events =
      (List.range n).map (fun i => (i % 256) &&& 0x0F) := by
  have hl := ledWrites_mainLoop n 0 initSt (by omega)
  simpa [initSt, ledWrites] using hl

/-- Claim C3: whenever `uart_putc` completes, the events it appended are
some busy polls (bit 0 set), then one poll observing idle (bit 0 clear),
and only then the write to the UART data register.  The data write is thus
not issued until the status register has been observed idle at least once
after everything already in the log, including the previous data write. -/
theorem C3_putc_write_after_idle_poll (status : Nat → Nat) (c fuel : Nat)
    (st st' : St) (h : uart_putc status c fuel st = (true, st')) :
    ∃ (busy : List Nat) (v : Nat),
      st'.events = st.events ++ busy.map Event.readStatus ++
        [Event.readStatus v, Event.writeData c] ∧
      (∀ u ∈ busy, u % 2 = 1) ∧ v % 2 = 0 := by
  induction fuel generalizing st with
  | zero => exact absurd h (by simp [uart_putc])
  | succ n ih =>
    by_cases hb : status st.reads % 2 = 1
    · simp only [uart_putc, if_pos hb] at h
      obtain ⟨busy, v, he, hbusy, hv⟩ := ih _ h
      refine ⟨status st.reads :: busy, v, ?_, ?_, hv⟩
      · rw [he]
        simp
      · intro u hu
        rcases List.mem_cons.mp hu with h1 | h2
        · rw [h1]; exact hb
        · exact hbusy u h2
    · simp only [uart_putc, if_neg hb, Prod.mk.injEq, true_and] at h
      refine ⟨[], status st.reads, ?_, by simp, by omega⟩
      rw [← h]
      simp

/-- Witness for C3: an always-idle oracle issues the write after a single
idle poll. -/
theorem C3_witness :
    ∃ (busy : List Nat) (v : Nat),
      (⟨1, [Event.readStatus 0, Event.writeData 72]⟩ : St).events =
        initSt.events ++ busy.map Event.readStatus ++
          [Event.readStatus v, Event.writeData 72] ∧
      (∀ u ∈ busy, u % 2 = 1) ∧ v % 2 = 0 :=
  C3_putc_write_after_idle_poll alwaysIdle 72 1 initSt
    ⟨1, [Event.readStatus 0, Event.writeData 72]⟩ (by decide)

/-- Claim C4: if every status read reports busy, `uart_putc` never returns
and never writes the data register: for every poll budget N the call comes
back unfinished and its log gains no UART data write. -/
theorem C4_putc_busy_never_writes (status : Nat → Nat) (c : Nat)
    (h : ∀ k, status k % 2 = 1) (N : Nat) (st : St) :
    (uart_putc status c N st).1 = false ∧
    uartWrites (uart_putc status c N st).2.events = uartWrites st.events := by
  rw [putc_busy_trace status c h N st]
  exact ⟨rfl, by rw [uartWrites_append, uartWrites_busyTrace]; simp⟩

/-- Witness for C4: the concrete always-busy oracle with 5 polls. -/
theorem C4_witness :
    (uart_putc alwaysBusy 72 5 initSt).1 = false ∧
    uartWrites (uart_putc alwaysBusy 72 5 initSt).2.events =
      uartWrites initSt.events :=
  C4_putc_busy_never_writes alwaysBusy 72 (fun _ => rfl) 5 initSt

/-- Counterexample to C5 as stated: `delay(0)` does not perform zero
decrements of the loop variable — the failing test of `count--` still
post-decrements, so `delay 0` performs one decrement (and `delay N`
performs N+1, e.g. `delay 5` performs 6). -/
theorem C5_counterexample :
    ¬((delay 0).1 = 0 ∧ ∀ n, 0 < n → (delay n).1 = n) := by
  intro hcl
  exact absurd hcl.1 (by decide)

/-- Claim C5 (amended): `delay(N)` executes the empty loop body exactly N
times but decrements the loop variable exactly N+1 times — the final,
failing evaluation of `count--` also decrements, wrapping the `uint32_t`
variable to 2^32 - 1; in particular `delay(0)` performs one decrement. -/
theorem C5_delay_decrements (n : Nat) :
    (delay n).1 = n + 1 ∧ (delay n).2 = UINT32_MOD - 1 := by
  induction n with
  | zero => exact ⟨rfl, rfl⟩
  | succ n ih =>
    rw [delay]
    exact ⟨by rw [ih.1], ih.2⟩

/-- Counterexample to C6 as stated: the startup byte stream, with the
status register always idle, is not 19 bytes long. -/
theorem C6_counterexample :
    (uartWrites (uart_puts alwaysIdle 1 HELLO initSt).2.events).length ≠ 19 := by
  decide

/-- Claim C6 (amended): the byte stream transmitted on startup is 17 bytes
total — "Hello, Arty A7!" is 15 characters — and it does end with the two
line-ending bytes, carriage-return (13) then line-feed (10). -/
theorem C6_greeting_is_17_bytes :
    (uartWrites (uart_puts alwaysIdle 1 HELLO initSt).2.events).length = 17 ∧
    (uartWrites (uart_puts alwaysIdle 1 HELLO initSt).2.events).drop 15 =
      [13, 10] := by
  decide

set_option maxRecDepth 4000 in
/-- Counterexample to C7 as stated: with zero-initialized memory (status
always idle), one full 256-iteration pattern cycle does not produce the
LED write history 0,1,2,...,255,0 — the loop writes `pattern & 0x0F`, so
values 16..255 never appear, and 256 iterations produce 256 writes, not
257. -/
theorem C7_counterexample :
    ledWrites ((firmwareMain alwaysIdle 1 256).2.events) ≠
      List.range 256 ++ [0] := by
  decide

set_option maxRecDepth 4000 in
/-- Claim C7 (amended): with zero-initialized memory and status always
idle, 256 iterations produce an LED history equal to the low nibble of
0,1,...,255 (that is, 0..15 repeated 16 times), and the wrap back to 0 is
observed on a 257th iteration, after which the history is the low nibble
of the sequence 0,1,...,255,0. -/
theorem C7_led_history_masked :
    ledWrites ((firmwareMain alwaysIdle 1 256).2.events) =
      (List.range 256).map (fun v => v &&& 0x0F) ∧
    ledWrites ((firmwareMain alwaysIdle 1 257).2.events) =
      (List.range 256 ++ [0]).map (fun v => v &&& 0x0F) := by
  constructor
  · decide
  · decide

/-- Claim C8: with an idle transmitter the startup greeting is sent, and
afterwards the steady-state LED loop never writes to the UART data
register: the complete UART write history of a run with any number of
loop iterations equals exactly the greeting bytes. -/
theorem C8_uart_silent_in_led_loop (status : Nat → Nat) (fuel n : Nat)
    (h : ∀ k, status k % 2 = 0) :
    uartWrites ((firmwareMain status (fuel + 1) n).2.events) = HELLO := by
  have hp := puts_idle status h fuel HELLO (by decide) initSt
  simp only [firmwareMain, hp.1, if_true]
  rw [uartWrites_mainLoop]
  simpa [initSt, uartWrites] using hp.2

/-- Witness for C8: the concrete always-idle oracle, 5 loop iterations. -/
theorem C8_witness :
    uartWrites ((firmwareMain alwaysIdle 1 5).2.events) = HELLO :=
  C8_uart_silent_in_led_loop alwaysIdle 0 5 (fun _ => rfl)

/-- Claim C9: `uart_puts` on the empty string performs no hardware register
access at all — the machine state (status-read count and event log) is
returned unchanged, and the call returns immediately reporting success. -/
theorem C9_puts_empty_no_access (status : Nat → Nat) (fuel : Nat) (st : St) :
    uart_puts status fuel [] st = (true, st) := rfl

/-- Claim C10: every value the program writes to the LED register is below
16 (bits 31:4 of the written word are zero), for any status oracle, poll
budget and iteration count, because the counter is masked with 0x0F before
every LED write. -/
theorem C10_led_values_lt_16 (status : Nat → Nat) (fuel n : Nat) (v : Nat)
    (hv : v ∈ ledWrites ((firmwareMain status fuel n).2.events)) : v < 16 := by
  have hled : ledWrites ((uart_puts status fuel HELLO initSt).2.events) = [] := by
    rw [ledWrites_puts]
    rfl
  rcases hbv : (uart_puts status fuel HELLO initSt).1 with _ | _
  · simp only [firmwareMain, hbv] at hv
    simp only [Bool.false_eq_true, if_false] at hv
    rw [hled] at hv
    exact absurd hv (List.not_mem_nil v)
  · simp only [firmwareMain, hbv, if_true] at hv
    rw [ledWrites_mainLoop n 0 _ (by omega), hled] at hv
    simp only [List.nil_append, List.mem_map] at hv
    obtain ⟨i, -, rfl⟩ := hv
    have hle : (0 + i) % 256 &&& 0x0F ≤ 0x0F := Nat.and_le_right
    omega

/-- Witness for C10: a run of two loop iterations writes the value 1, which
is below 16. -/
theorem C10_witness :
    1 ∈ ledWrites ((firmwareMain alwaysIdle 1 2).2.events) ∧ (1 : Nat) < 16 :=
  ⟨by decide, C10_led_values_lt_16 alwaysIdle 1 2 1 (by decide)⟩

end Firmware
